import Mathlib

/-! Verification of the pool discovery, registry and quoting engine and of the
event-sourced state store of the DEX adapter library.

The definitions below are a shallow embedding of the TypeScript source:
`IdleDaoEventPool` (event-sourced state store) and the `Ekubo` class
(pool discovery, pool registry, quoting engine).  External collaborators
(the on-chain read, the log decoder, a pool's quoting function, the
external index API) are passed in as explicit function parameters, so that
each operation becomes a pure, executable Lean function of its inputs. -/

namespace Spec2Proof

/-! ## Event-sourced state store (`IdleDaoEventPool`) -/

/-- State snapshot tracked by the store: a single scalar token price. -/
structure PoolState where
  tokenPrice : Int
deriving DecidableEq, Repr

/-- An on-chain log notification; the payload is left opaque since only the
decoder (a parameter) inspects it. -/
structure IdleLog where
  blockNumber : Nat
deriving DecidableEq, Repr

/-- A decoded event; only its `name` is used for handler dispatch. -/
structure IdleEvent where
  name : String
deriving DecidableEq, Repr

/-- Embeds `IdleDaoEventPool.generateState`: one authoritative point-in-time
read (`virtualPrice`, modelled as a function of the block number since the
CDO contract and idle token address are fixed per instance) rebuilds the
whole snapshot. -/
def generateState (virtualPrice : Nat → Int) (blockNumber : Nat) : PoolState :=
  { tokenPrice := virtualPrice blockNumber }

/-- Embeds `IdleDaoEventPool.handleCoinTransfer`: the Transfer handler
ignores the previous state and regenerates from chain at the log's block. -/
def handleCoinTransfer (virtualPrice : Nat → Int) (_event : IdleEvent)
    (_state : PoolState) (log : IdleLog) : Option PoolState :=
  some (generateState virtualPrice log.blockNumber)

/-- Embeds the `handlers` table built in the constructor: exactly one entry,
keyed `"Transfer"`, bound to `handleCoinTransfer`. -/
def handlers (virtualPrice : Nat → Int) (name : String) :
    Option (IdleEvent → PoolState → IdleLog → Option PoolState) :=
  if name = "Transfer" then some (handleCoinTransfer virtualPrice) else none

/-- Embeds `IdleDaoEventPool.processLog`: decode the log (a throwing decoder
is modelled by `Option`; the catch block turns a decode failure into `null`),
dispatch on the event name, and return `null` when no handler is registered. -/
def processLog (virtualPrice : Nat → Int) (logDecoder : IdleLog → Option IdleEvent)
    (state : PoolState) (log : IdleLog) : Option PoolState :=
  match logDecoder log with
  | none => none
  | some event =>
    match handlers virtualPrice event.name with
    | none => none
    | some h => h event state log

/-! ## Ekubo data model -/

/-- Trade direction of a pricing request. -/
inductive SwapSide where
  | SELL
  | BUY
deriving DecidableEq, Repr

/-- Mirrors `side === SwapSide.BUY`. -/
def SwapSide.isBuy : SwapSide → Bool
  | .BUY => true
  | .SELL => false

/-- A ParaSwap token: address (as its numeric value) and decimals. -/
structure Token where
  address : Nat
  decimals : Nat
deriving DecidableEq, Repr

/-- Immutable pool configuration: tick spacing, fee and extension tag. -/
structure PoolConfig where
  tickSpacing : Nat
  fee : Nat
  extension : Nat
deriving DecidableEq, Repr

/-- A pool key: canonically ordered token pair plus configuration. -/
structure PoolKey where
  token0 : Nat
  token1 : Nat
  config : PoolConfig
deriving DecidableEq, Repr

/-- Modelled from the spec: the pool identifier (`string_id`) is an opaque
stable string derived deterministically and injectively from the immutable
configuration; the rendering itself is not under `src/`, so we model the
identifier by the key value it determines. -/
def PoolKey.string_id (k : PoolKey) : PoolKey := k

/-- A quote result: consumed amount, calculated amount, gas estimate and the
`skipAhead` continuation token. -/
structure Quote where
  consumedAmount : Int
  calculatedAmount : Int
  gasConsumed : Nat
  skipAhead : Nat
deriving DecidableEq, Repr

/-- A pool object: its immutable key and its quoting function over the
current snapshot.  `BasePool.quote` is not under `src/`; the quoting engine
treats it as an external collaborator, so it is a function field, with
`none` modelling a thrown exception. -/
structure Pool where
  key : PoolKey
  quote : Int → Nat → Nat → Option Quote

/-- The pool registry `Map<string, BasePool>`, as an insertion-ordered
association list keyed by pool identifier. -/
abbrev Registry := List (PoolKey × Pool)

/-- JS `Map.get`. -/
def Registry.get (r : Registry) (id : PoolKey) : Option Pool :=
  match r with
  | [] => none
  | (k, p) :: rest => if k = id then some p else Registry.get rest id

/-- JS `Map.set`: replace in place when the key is present (insertion order
kept), append otherwise. -/
def Registry.set (r : Registry) (id : PoolKey) (p : Pool) : Registry :=
  match r with
  | [] => [(id, p)]
  | (k, q) :: rest => if k = id then (k, p) :: rest else (k, q) :: Registry.set rest id p

/-- Modelled from the spec: `convertParaSwapToEkubo` (not under `src/`) maps
a ParaSwap token address to the venue's numeric address form; we work
directly with numeric address values, so it is the identity. -/
def convertParaSwapToEkubo (address : Nat) : Nat := address

/-- Modelled from the spec: the venue's native-asset address constant
(`NATIVE_TOKEN_ADDRESS`, not under `src/`). -/
def NATIVE_TOKEN_ADDRESS : Nat := 0

/-- Modelled from the spec: tick spacing marking a full-range-only pool
(`FULL_RANGE_TICK_SPACING`, not under `src/`). -/
def FULL_RANGE_TICK_SPACING : Nat := 0

/-- Modelled from the spec: `sortAndConvertTokens` (not under `src/`) returns
the canonical ordered pair, ordered by numeric address value, lower first. -/
def sortAndConvertTokens (tokenA tokenB : Token) : Nat × Nat :=
  let a := convertParaSwapToEkubo tokenA.address
  let b := convertParaSwapToEkubo tokenB.address
  if a ≤ b then (a, b) else (b, a)

/-! ## Quoting engine (`Ekubo.getPricesVolume` and `Ekubo.getInitializedPools`) -/

/-- Embeds `Ekubo.getInitializedPools`: with no allow-list, all registry pools
whose key matches the canonical pair; with an allow-list, the pools looked up
by identifier, missing identifiers dropped with a warning. -/
def getInitializedPools (registry : Registry) (tokenA tokenB : Token)
    (limitPools : Option (List PoolKey)) : List Pool :=
  match limitPools with
  | none =>
    let p := sortAndConvertTokens tokenA tokenB
    (registry.map Prod.snd).filter
      (fun pool => decide (pool.key.token0 = p.1 ∧ pool.key.token1 = p.2))
  | some ids =>
    ids.flatMap (fun id =>
      match Registry.get registry id with
      | none => []
      | some pool => [pool])

/-- The token the requested amounts are denominated in: destination token for
a buy (exact-output) request, source token for a sell (exact-input) one. -/
def amountTokenOf (side : SwapSide) (srcToken destToken : Token) : Token :=
  if side = SwapSide.BUY then destToken else srcToken

/-- One whole token of the amount token (`getBigIntPow(amountToken.decimals)`). -/
def unitAmountOf (t : Token) : Int := (10 : Int) ^ t.decimals

/-- The signed input amount handed to `pool.quote`:
`isExactOut ? -amount : amount`. -/
def signedAmount (isExactOut : Bool) (amount : Int) : Int :=
  if isExactOut then -amount else amount

/-- Embeds the inner `for (const amount of [unitAmount, ...amounts])` loop of
`Ekubo.getPricesVolume`: quote each amount in order; a thrown exception
(`none` from `Pool.quote`) or, on exact-out, a consumed amount differing from
the signed input amount aborts the whole pool (`continue poolLoop`), which the
`Option` result models as `none`. -/
def quoteAmounts (pool : Pool) (isExactOut : Bool) (amountTokenAddress blockNumber : Nat) :
    List Int → Option (List Quote)
  | [] => some []
  | amount :: rest =>
    let inputAmount := signedAmount isExactOut amount
    match pool.quote inputAmount amountTokenAddress blockNumber with
    | none => none
    | some q =>
      if isExactOut = true ∧ q.consumedAmount ≠ inputAmount then none
      else
        match quoteAmounts pool isExactOut amountTokenAddress blockNumber rest with
        | none => none
        | some qs => some (q :: qs)

/-- One price point of the result list (`ExchangePrices` entry). -/
structure PricePoint where
  prices : List Int
  unit : Int
  poolKey : PoolKey
  isToken1 : Bool
  skipAhead : List (Int × Nat)
  poolIdentifier : PoolKey
  gasCost : List Nat
deriving DecidableEq, Repr

/-- The price point one pool contributes to `Ekubo.getPricesVolume`, if any:
`none` when the pool's key does not match the canonical pair, or when
`quoteAmounts` aborts the pool. -/
def pricePointForPool (isExactOut : Bool) (token0 token1 amountTokenAddress blockNumber : Nat)
    (allAmounts : List Int) (pool : Pool) : Option PricePoint :=
  if pool.key.token0 = token0 ∧ pool.key.token1 = token1 then
    match quoteAmounts pool isExactOut amountTokenAddress blockNumber allAmounts with
    | some (unitQuote :: otherQuotes) =>
      some
        { prices := otherQuotes.map (fun q => q.calculatedAmount)
          unit := unitQuote.calculatedAmount
          poolKey := pool.key
          isToken1 := amountTokenAddress == token1
          skipAhead := allAmounts.zip ((unitQuote :: otherQuotes).map (fun q => q.skipAhead))
          poolIdentifier := pool.key.string_id
          gasCost := otherQuotes.map (fun q => q.gasConsumed) }
    | _ => none
  else none

/-- Embeds the `poolLoop` of `Ekubo.getPricesVolume` literally: skip a pool
on pair mismatch (`continue`), skip it when its quotes abort (`continue
poolLoop` and the surrounding `catch`), and otherwise push its price point. -/
def poolLoop (isExactOut : Bool) (token0 token1 amountTokenAddress blockNumber : Nat)
    (allAmounts : List Int) : List Pool → List PricePoint
  | [] => []
  | pool :: rest =>
    let tail := poolLoop isExactOut token0 token1 amountTokenAddress blockNumber allAmounts rest
    if pool.key.token0 = token0 ∧ pool.key.token1 = token1 then
      match quoteAmounts pool isExactOut amountTokenAddress blockNumber allAmounts with
      | some (unitQuote :: otherQuotes) =>
        { prices := otherQuotes.map (fun q => q.calculatedAmount)
          unit := unitQuote.calculatedAmount
          poolKey := pool.key
          isToken1 := amountTokenAddress == token1
          skipAhead := allAmounts.zip ((unitQuote :: otherQuotes).map (fun q => q.skipAhead))
          poolIdentifier := pool.key.string_id
          gasCost := otherQuotes.map (fun q => q.gasConsumed) } :: tail
      | _ => tail
    else tail

/-- Embeds `Ekubo.getPricesVolume`: select candidate pools, canonicalize the
pair, fix the amount token and unit amount, and run the pool loop over the
unit amount followed by the requested amounts. -/
def getPricesVolume (registry : Registry) (srcToken destToken : Token) (amounts : List Int)
    (side : SwapSide) (blockNumber : Nat) (limitPools : Option (List PoolKey)) :
    List PricePoint :=
  let pools := getInitializedPools registry srcToken destToken limitPools
  let isExactOut := side.isBuy
  let amountToken := amountTokenOf side srcToken destToken
  let amountTokenAddress := convertParaSwapToEkubo amountToken.address
  let unitAmount := unitAmountOf amountToken
  let p := sortAndConvertTokens srcToken destToken
  poolLoop isExactOut p.1 p.2 amountTokenAddress blockNumber (unitAmount :: amounts) pools

/-! ## Pool discovery (`Ekubo.fetchPoolsByPair`, `FALLBACK_POOL_PARAMETERS`) -/

/-- A generic fee/tick-spacing combination of the static fallback list. -/
structure VanillaPoolParameters where
  fee : Nat
  tickSpacing : Nat
deriving DecidableEq, Repr

/-- Embeds the `FALLBACK_POOL_PARAMETERS` constant verbatim. -/
def FALLBACK_POOL_PARAMETERS : List VanillaPoolParameters :=
  [ { fee := 1844674407370955, tickSpacing := 200 }
  , { fee := 9223372036854775, tickSpacing := 1000 }
  , { fee := 55340232221128654, tickSpacing := 5982 }
  , { fee := 184467440737095516, tickSpacing := 19802 }
  , { fee := 922337203685477580, tickSpacing := 95310 } ]

/-- Embeds the `catch` branch of `Ekubo.fetchPoolsByPair`: the static fallback
pool keys for a canonical pair — the generic fee/spacing combinations with no
extension, plus one oracle-extension full-range pool when one side of the
pair is the native asset.  `oracle` is `BigInt(this.config.oracle)`. -/
def fallbackPoolKeys (oracle : Nat) (token0 token1 : Nat) : List PoolKey :=
  (FALLBACK_POOL_PARAMETERS.map (fun params =>
    { token0 := token0, token1 := token1
      config := { tickSpacing := params.tickSpacing, fee := params.fee, extension := 0 } }))
  ++ (if token0 = NATIVE_TOKEN_ADDRESS ∨ token1 = NATIVE_TOKEN_ADDRESS then
        [{ token0 := token0, token1 := token1
           config := { tickSpacing := FULL_RANGE_TICK_SPACING, fee := 0, extension := oracle } }]
      else [])

/-- Embeds the pool-key selection of `Ekubo.fetchPoolsByPair`: the result of
`fetchAllPoolKeys` (an external HTTP call, passed in as an `Except`) filtered
to the canonical pair, or the static fallback list when the call failed. -/
def fetchPoolsByPairKeys (oracle : Nat) (tokenA tokenB : Token)
    (fetchResult : Except Unit (List PoolKey)) : List PoolKey :=
  let p := sortAndConvertTokens tokenA tokenB
  match fetchResult with
  | .ok poolKeys =>
    poolKeys.filter (fun k => decide (k.token0 = p.1 ∧ k.token1 = p.2))
  | .error _ => fallbackPoolKeys oracle p.1 p.2

/-! ## Batched initialization (`Ekubo.initializePools`, `Ekubo.updatePoolMap`) -/

/-- Embeds the `MAX_POOL_BATCH_COUNT` constant. -/
def MAX_POOL_BATCH_COUNT : Nat := 5

/-- Recursion worker for `chunks`; `fuel` bounds the number of slices so the
recursion is structural (any `fuel ≥ l.length` gives the same result). -/
def chunksAux (n : Nat) : Nat → List α → List (List α)
  | _, [] => []
  | 0, l => [l]
  | fuel + 1, x :: xs => (x :: xs.take (n - 1)) :: chunksAux n fuel (xs.drop (n - 1))

/-- Consecutive slices of at most `n` elements, as produced by the
`poolKeys.slice(batchStart, batchStart + MAX_POOL_BATCH_COUNT)` loop. -/
def chunks (n : Nat) (l : List α) : List (List α) := chunksAux n l.length l

/-- Environment of one discovery pass: whether a batch's deadline elapses
first, whether the batched data-fetcher call fails, and the pool object built
from a fetched pool key (`PoolState.fromQuoter` plus the pool constructor,
both external to `src/`). -/
structure InitEnv where
  timesOut : List PoolKey → Bool
  fetchFails : List PoolKey → Bool
  mkPool : PoolKey → Pool

/-- Embeds one batch of `Ekubo.initializePools`: the race of the optional
deadline against the batched fetch, the defensive unknown-extension check,
and the `catch` that rethrows the error together with the batch's pool keys.
A failure yields `Except.error` carrying exactly that batch. -/
def runBatch (oracle : Nat) (env : InitEnv) (maxTime : Option Nat) (batch : List PoolKey) :
    Except (List PoolKey) (List (PoolKey × Pool)) :=
  if (match maxTime with | some _ => env.timesOut batch | none => false) then
    .error batch
  else if env.fetchFails batch then
    .error batch
  else if batch.all (fun k => k.config.extension == 0 || k.config.extension == oracle) then
    .ok (batch.map (fun k => (k, env.mkPool k)))
  else
    .error batch

/-- Embeds `Ekubo.initializePools`: partition the pool keys into consecutive
batches of at most `MAX_POOL_BATCH_COUNT` and run each batch independently. -/
def initializePools (oracle : Nat) (env : InitEnv) (poolKeys : List PoolKey)
    (maxTime : Option Nat) : List (Except (List PoolKey) (List (PoolKey × Pool))) :=
  (chunks MAX_POOL_BATCH_COUNT poolKeys).map (runBatch oracle env maxTime)

/-- Registry effect of the settled batch results: each successful batch's
pools are `set` under their identifiers (`this.pools.set(poolId, pool)`);
a failed batch contributes nothing. -/
def applyInitResults (r : Registry)
    (results : List (Except (List PoolKey) (List (PoolKey × Pool)))) : Registry :=
  results.foldl
    (fun acc res =>
      match res with
      | .error _ => acc
      | .ok pairs => pairs.foldl (fun acc kp => Registry.set acc kp.1.string_id kp.2) acc)
    r

/-- Embeds `Ekubo.updatePoolMap`: on fetch failure the registry is left
untouched; otherwise only pool keys whose identifier is not yet tracked are
initialized (no deadline), and settled batch results update the registry. -/
def updatePoolMap (oracle : Nat) (env : InitEnv) (r : Registry)
    (fetched : Except Unit (List PoolKey)) : Registry :=
  match fetched with
  | .error _ => r
  | .ok poolKeys =>
    let uninitializedPoolKeys :=
      poolKeys.filter (fun k => (Registry.get r k.string_id).isNone)
    applyInitResults r (initializePools oracle env uninitializedPoolKeys none)

/-! ## Helper lemmas -/

theorem chunksAux_flatten (n : Nat) :
    ∀ (fuel : Nat) (l : List α), l.length ≤ fuel → (chunksAux n fuel l).flatten = l := by
  intro fuel
  induction fuel with
  | zero =>
    intro l hl
    match l with
    | [] => rfl
    | x :: xs => simp at hl
  | succ fuel ih =>
    intro l hl
    match l with
    | [] => rfl
    | x :: xs =>
      rw [chunksAux]
      have hd : (xs.drop (n - 1)).length ≤ fuel := by
        simp only [List.length_drop]
        simp only [List.length_cons] at hl
        omega
      simp [ih (xs.drop (n - 1)) hd]

theorem chunks_flatten (n : Nat) (l : List α) : (chunks n l).flatten = l :=
  chunksAux_flatten n l.length l (Nat.le_refl _)

theorem chunksAux_length_le (n : Nat) (hn : 0 < n) :
    ∀ (fuel : Nat) (l : List α), l.length ≤ fuel →
      ∀ b ∈ chunksAux n fuel l, b.length ≤ n := by
  intro fuel
  induction fuel with
  | zero =>
    intro l hl b hb
    match l with
    | [] => cases hb
    | x :: xs => simp at hl
  | succ fuel ih =>
    intro l hl b hb
    match l with
    | [] => cases hb
    | x :: xs =>
      rw [chunksAux] at hb
      have hd : (xs.drop (n - 1)).length ≤ fuel := by
        simp only [List.length_drop]
        simp only [List.length_cons] at hl
        omega
      rcases List.mem_cons.1 hb with hb | hb
      · subst hb
        simp only [List.length_cons, List.length_take]
        omega
      · exact ih (xs.drop (n - 1)) hd b hb

theorem chunks_length_le (n : Nat) (hn : 0 < n) (l : List α) :
    ∀ b ∈ chunks n l, b.length ≤ n :=
  chunksAux_length_le n hn l.length l (Nat.le_refl _)

theorem poolLoop_eq_filterMap (isExactOut : Bool)
    (token0 token1 amountTokenAddress blockNumber : Nat) (allAmounts : List Int)
    (pools : List Pool) :
    poolLoop isExactOut token0 token1 amountTokenAddress blockNumber allAmounts pools
      = pools.filterMap
          (pricePointForPool isExactOut token0 token1 amountTokenAddress blockNumber allAmounts) := by
  induction pools with
  | nil => rfl
  | cons pool rest ih =>
    rw [poolLoop, List.filterMap_cons]
    by_cases h : pool.key.token0 = token0 ∧ pool.key.token1 = token1
    · rw [pricePointForPool, if_pos h]
      cases hq : quoteAmounts pool isExactOut amountTokenAddress blockNumber allAmounts with
      | none => simp [h, hq, ih]
      | some qs =>
        cases qs with
        | nil => simp [h, hq, ih]
        | cons unitQuote otherQuotes => simp [h, hq, ih]
    · rw [pricePointForPool, if_neg h]
      simp [h, ih]

theorem quoteAmounts_none_of_quote_none (pool : Pool) (isExactOut : Bool)
    (amountTokenAddress blockNumber : Nat) (amts : List Int) (a : Int)
    (ha : a ∈ amts)
    (hq : pool.quote (signedAmount isExactOut a) amountTokenAddress blockNumber = none) :
    quoteAmounts pool isExactOut amountTokenAddress blockNumber amts = none := by
  induction amts with
  | nil => cases ha
  | cons amount rest ih =>
    rw [quoteAmounts]
    rcases List.mem_cons.1 ha with h | h
    · subst h
      rw [hq]
    · cases hc : pool.quote (signedAmount isExactOut amount) amountTokenAddress blockNumber with
      | none => rfl
      | some q =>
        simp only []
        split
        · rfl
        · rw [ih h]

theorem quoteAmounts_none_of_consumed_ne (pool : Pool)
    (amountTokenAddress blockNumber : Nat) (amts : List Int) (a : Int) (q : Quote)
    (ha : a ∈ amts)
    (hq : pool.quote (signedAmount true a) amountTokenAddress blockNumber = some q)
    (hne : q.consumedAmount ≠ signedAmount true a) :
    quoteAmounts pool true amountTokenAddress blockNumber amts = none := by
  induction amts with
  | nil => cases ha
  | cons amount rest ih =>
    rw [quoteAmounts]
    rcases List.mem_cons.1 ha with h | h
    · subst h
      rw [hq]
      simp [hne]
    · cases hc : pool.quote (signedAmount true amount) amountTokenAddress blockNumber with
      | none => rfl
      | some q₂ =>
        simp only []
        split
        · rfl
        · rw [ih h]

theorem quoteAmounts_length (pool : Pool) (isExactOut : Bool)
    (amountTokenAddress blockNumber : Nat) :
    ∀ (amts : List Int) (qs : List Quote),
      quoteAmounts pool isExactOut amountTokenAddress blockNumber amts = some qs →
      qs.length = amts.length := by
  intro amts
  induction amts with
  | nil =>
    intro qs h
    rw [quoteAmounts] at h
    cases h
    rfl
  | cons amount rest ih =>
    intro qs h
    rw [quoteAmounts] at h
    cases hc : pool.quote (signedAmount isExactOut amount) amountTokenAddress blockNumber with
    | none => rw [hc] at h; cases h
    | some q =>
      rw [hc] at h
      simp only [] at h
      split at h
      · cases h
      · cases hr : quoteAmounts pool isExactOut amountTokenAddress blockNumber rest with
        | none => rw [hr] at h; cases h
        | some qs₂ =>
          rw [hr] at h
          cases h
          simp [ih qs₂ hr]

theorem quoteAmounts_getElem (pool : Pool) (isExactOut : Bool)
    (amountTokenAddress blockNumber : Nat) :
    ∀ (amts : List Int) (qs : List Quote),
      quoteAmounts pool isExactOut amountTokenAddress blockNumber amts = some qs →
      ∀ (i : Nat) (a : Int), amts[i]? = some a →
        ∃ q, qs[i]? = some q ∧
          pool.quote (signedAmount isExactOut a) amountTokenAddress blockNumber = some q ∧
          (isExactOut = true → q.consumedAmount = signedAmount isExactOut a) := by
  intro amts
  induction amts with
  | nil =>
    intro qs h i a hi
    simp at hi
  | cons amount rest ih =>
    intro qs h i a hi
    rw [quoteAmounts] at h
    cases hc : pool.quote (signedAmount isExactOut amount) amountTokenAddress blockNumber with
    | none => rw [hc] at h; cases h
    | some q =>
      rw [hc] at h
      simp only [] at h
      split at h
      · cases h
      · rename_i hcond
        cases hr : quoteAmounts pool isExactOut amountTokenAddress blockNumber rest with
        | none => rw [hr] at h; cases h
        | some qs₂ =>
          rw [hr] at h
          cases h
          cases i with
          | zero =>
            simp only [List.getElem?_cons_zero, Option.some.injEq] at hi
            subst hi
            refine ⟨q, by simp, hc, ?_⟩
            intro hxo
            by_contra hne
            exact hcond ⟨hxo, hne⟩
          | succ j =>
            simp only [List.getElem?_cons_succ] at hi ⊢
            exact ih qs₂ hr j a hi

theorem pricePointForPool_some (isExactOut : Bool)
    (token0 token1 amountTokenAddress blockNumber : Nat) (allAmounts : List Int)
    (pool : Pool) (e : PricePoint)
    (h : pricePointForPool isExactOut token0 token1 amountTokenAddress blockNumber
        allAmounts pool = some e) :
    pool.key.token0 = token0 ∧ pool.key.token1 = token1 ∧ e.poolKey = pool.key ∧
    ∃ unitQuote otherQuotes,
      quoteAmounts pool isExactOut amountTokenAddress blockNumber allAmounts
        = some (unitQuote :: otherQuotes) ∧
      e.unit = unitQuote.calculatedAmount ∧
      e.prices = otherQuotes.map (fun q => q.calculatedAmount) ∧
      e.gasCost = otherQuotes.map (fun q => q.gasConsumed) := by
  rw [pricePointForPool] at h
  split at h
  · rename_i hpair
    cases hq : quoteAmounts pool isExactOut amountTokenAddress blockNumber allAmounts with
    | none => rw [hq] at h; cases h
    | some qs =>
      rw [hq] at h
      cases qs with
      | nil => cases h
      | cons unitQuote otherQuotes =>
        cases h
        exact ⟨hpair.1, hpair.2, rfl, unitQuote, otherQuotes, rfl, rfl, rfl, rfl⟩
  · cases h

theorem getPricesVolume_eq_filterMap (registry : Registry) (srcToken destToken : Token)
    (amounts : List Int) (side : SwapSide) (blockNumber : Nat)
    (limitPools : Option (List PoolKey)) :
    getPricesVolume registry srcToken destToken amounts side blockNumber limitPools
      = (getInitializedPools registry srcToken destToken limitPools).filterMap
          (pricePointForPool side.isBuy
            (sortAndConvertTokens srcToken destToken).1
            (sortAndConvertTokens srcToken destToken).2
            (convertParaSwapToEkubo (amountTokenOf side srcToken destToken).address)
            blockNumber
            (unitAmountOf (amountTokenOf side srcToken destToken) :: amounts)) := by
  simp only [getPricesVolume]
  exact poolLoop_eq_filterMap _ _ _ _ _ _ _

theorem Registry.get_set_self (r : Registry) (id : PoolKey) (p : Pool) :
    Registry.get (Registry.set r id p) id = some p := by
  induction r with
  | nil => simp [Registry.set, Registry.get]
  | cons hd rest ih =>
    obtain ⟨k, q⟩ := hd
    rw [Registry.set]
    by_cases h : k = id
    · simp [h, Registry.get]
    · simp only [if_neg h]
      rw [Registry.get, if_neg h]
      exact ih

theorem Registry.get_set_ne (r : Registry) (id id₂ : PoolKey) (p : Pool)
    (h : id₂ ≠ id) :
    Registry.get (Registry.set r id₂ p) id = Registry.get r id := by
  induction r with
  | nil => simp [Registry.set, Registry.get, h]
  | cons hd rest ih =>
    obtain ⟨k, q⟩ := hd
    rw [Registry.set]
    by_cases hk : k = id₂
    · subst hk
      rw [if_pos rfl, Registry.get, Registry.get, if_neg h, if_neg h]
    · rw [if_neg hk, Registry.get, Registry.get]
      by_cases hk2 : k = id
      · rw [if_pos hk2, if_pos hk2]
      · rw [if_neg hk2, if_neg hk2]
        exact ih

theorem Registry.get_set_isSome (r : Registry) (id id₂ : PoolKey) (p : Pool)
    (h : (Registry.get r id).isSome) :
    (Registry.get (Registry.set r id₂ p) id).isSome := by
  by_cases he : id₂ = id
  · subst he
    rw [Registry.get_set_self]
    rfl
  · rw [Registry.get_set_ne r id id₂ p he]
    exact h

theorem Registry.mem_keys_set (r : Registry) (id : PoolKey) (p : Pool) (k : PoolKey)
    (h : k ∈ (Registry.set r id p).map Prod.fst) :
    k ∈ r.map Prod.fst ∨ k = id := by
  induction r with
  | nil =>
    simp [Registry.set] at h
    exact Or.inr h
  | cons hd rest ih =>
    obtain ⟨k₀, q⟩ := hd
    rw [Registry.set] at h
    by_cases hk : k₀ = id
    · rw [if_pos hk] at h
      simp at h
      rcases h with h | h
      · exact Or.inl (by simp [h])
      · exact Or.inl (by simp [h])
    · rw [if_neg hk] at h
      simp at h
      rcases h with h | h
      · exact Or.inl (by simp [h])
      · rcases ih (by simpa using h) with h₂ | h₂
        · exact Or.inl (by simp; exact Or.inr (by simpa using h₂))
        · exact Or.inr h₂

theorem Registry.set_keys_nodup (r : Registry) (id : PoolKey) (p : Pool)
    (h : (r.map Prod.fst).Nodup) :
    ((Registry.set r id p).map Prod.fst).Nodup := by
  induction r with
  | nil => simp [Registry.set]
  | cons hd rest ih =>
    obtain ⟨k₀, q⟩ := hd
    rw [Registry.set]
    by_cases hk : k₀ = id
    · rw [if_pos hk]
      simpa using h
    · rw [if_neg hk]
      simp only [List.map_cons, List.nodup_cons] at h ⊢
      refine ⟨?_, ih h.2⟩
      intro hmem
      rcases Registry.mem_keys_set rest id p k₀ hmem with h₂ | h₂
      · exact h.1 h₂
      · exact hk h₂

theorem Registry.get_foldl_set_of_ne (pairs : List (PoolKey × Pool)) (id : PoolKey) :
    ∀ (r : Registry), (∀ kp ∈ pairs, kp.1.string_id ≠ id) →
      Registry.get
        (pairs.foldl (fun acc kp => Registry.set acc kp.1.string_id kp.2) r) id
        = Registry.get r id := by
  induction pairs with
  | nil => intro r _; rfl
  | cons kp rest ih =>
    intro r hne
    rw [List.foldl_cons]
    rw [ih _ (fun kp₂ h => hne kp₂ (List.mem_cons_of_mem kp h))]
    exact Registry.get_set_ne r id kp.1.string_id kp.2 (hne kp (List.mem_cons_self kp rest))

theorem Registry.foldl_set_isSome_mono (pairs : List (PoolKey × Pool)) (id : PoolKey) :
    ∀ (r : Registry), (Registry.get r id).isSome →
      (Registry.get
        (pairs.foldl (fun acc kp => Registry.set acc kp.1.string_id kp.2) r) id).isSome := by
  induction pairs with
  | nil => intro r h; exact h
  | cons kp rest ih =>
    intro r h
    rw [List.foldl_cons]
    exact ih _ (Registry.get_set_isSome r id kp.1.string_id kp.2 h)

theorem Registry.foldl_set_isSome_of_mem (pairs : List (PoolKey × Pool)) (kp : PoolKey × Pool)
    (hmem : kp ∈ pairs) :
    ∀ (r : Registry),
      (Registry.get
        (pairs.foldl (fun acc kp₂ => Registry.set acc kp₂.1.string_id kp₂.2) r)
        kp.1.string_id).isSome := by
  induction pairs with
  | nil => cases hmem
  | cons kp₀ rest ih =>
    intro r
    rw [List.foldl_cons]
    rcases List.mem_cons.1 hmem with h | h
    · subst h
      refine Registry.foldl_set_isSome_mono rest kp.1.string_id _ ?_
      rw [Registry.get_set_self]
      rfl
    · exact ih h _

theorem Registry.foldl_set_keys_nodup (pairs : List (PoolKey × Pool)) :
    ∀ (r : Registry), (r.map Prod.fst).Nodup →
      (((pairs.foldl (fun acc kp => Registry.set acc kp.1.string_id kp.2) r)).map
        Prod.fst).Nodup := by
  induction pairs with
  | nil => intro r h; exact h
  | cons kp rest ih =>
    intro r h
    rw [List.foldl_cons]
    exact ih _ (Registry.set_keys_nodup r kp.1.string_id kp.2 h)

theorem applyInitResults_get_of_ne
    (results : List (Except (List PoolKey) (List (PoolKey × Pool)))) (id : PoolKey) :
    ∀ (r : Registry),
      (∀ pairs ∈ results, ∀ ps, pairs = Except.ok ps → ∀ kp ∈ ps, kp.1.string_id ≠ id) →
      Registry.get (applyInitResults r results) id = Registry.get r id := by
  induction results with
  | nil => intro r _; rfl
  | cons res rest ih =>
    intro r hne
    rw [applyInitResults, List.foldl_cons]
    cases res with
    | error b =>
      exact ih r (fun pairs h => hne pairs (List.mem_cons_of_mem _ h))
    | ok ps =>
      rw [show (List.foldl _ _ rest : Registry) = applyInitResults _ rest from rfl]
      rw [ih _ (fun pairs h => hne pairs (List.mem_cons_of_mem _ h))]
      exact Registry.get_foldl_set_of_ne ps id r
        (hne (Except.ok ps) (List.mem_cons_self _ _) ps rfl)

theorem applyInitResults_isSome_mono
    (results : List (Except (List PoolKey) (List (PoolKey × Pool)))) (id : PoolKey) :
    ∀ (r : Registry), (Registry.get r id).isSome →
      (Registry.get (applyInitResults r results) id).isSome := by
  induction results with
  | nil => intro r h; exact h
  | cons res rest ih =>
    intro r h
    rw [applyInitResults, List.foldl_cons]
    cases res with
    | error b => exact ih r h
    | ok ps =>
      exact ih _ (Registry.foldl_set_isSome_mono ps id r h)

theorem applyInitResults_keys_nodup
    (results : List (Except (List PoolKey) (List (PoolKey × Pool)))) :
    ∀ (r : Registry), (r.map Prod.fst).Nodup →
      ((applyInitResults r results).map Prod.fst).Nodup := by
  induction results with
  | nil => intro r h; exact h
  | cons res rest ih =>
    intro r h
    rw [applyInitResults, List.foldl_cons]
    cases res with
    | error b => exact ih r h
    | ok ps => exact ih _ (Registry.foldl_set_keys_nodup ps r h)

theorem applyInitResults_append (r : Registry)
    (xs ys : List (Except (List PoolKey) (List (PoolKey × Pool)))) :
    applyInitResults r (xs ++ ys) = applyInitResults (applyInitResults r xs) ys := by
  simp [applyInitResults, List.foldl_append]

theorem runBatch_ok_inv (oracle : Nat) (env : InitEnv) (maxTime : Option Nat)
    (batch : List PoolKey) (ps : List (PoolKey × Pool))
    (h : runBatch oracle env maxTime batch = Except.ok ps) :
    ps = batch.map (fun k => (k, env.mkPool k)) := by
  rw [runBatch.eq_def] at h
  split at h
  · cases h
  · split at h
    · cases h
    · split at h
      · cases h
        rfl
      · cases h

theorem runBatch_error_inv (oracle : Nat) (env : InitEnv) (maxTime : Option Nat)
    (batch : List PoolKey) (e : List PoolKey)
    (h : runBatch oracle env maxTime batch = Except.error e) :
    e = batch := by
  rw [runBatch.eq_def] at h
  split at h
  · cases h; rfl
  · split at h
    · cases h; rfl
    · split at h
      · cases h
      · cases h; rfl

theorem applyInitResults_cons_ok (r : Registry) (ps : List (PoolKey × Pool))
    (ys : List (Except (List PoolKey) (List (PoolKey × Pool)))) :
    applyInitResults r (Except.ok ps :: ys)
      = applyInitResults
          (ps.foldl (fun acc kp => Registry.set acc kp.1.string_id kp.2) r) ys := by
  simp [applyInitResults]

/-! ## Concrete instances used by the witnesses -/

/-- Example point-in-time read. -/
def vp₀ : Nat → Int := fun b => (b : Int) * 3 + 1

/-- Example log at block 7. -/
def log₀ : IdleLog := { blockNumber := 7 }

/-- Example previous state. -/
def st₀ : PoolState := { tokenPrice := 42 }

/-- Decoder that always fails (throwing `parseLog`). -/
def decFail : IdleLog → Option IdleEvent := fun _ => none

/-- Decoder producing an event kind with no registered handler. -/
def decApproval : IdleLog → Option IdleEvent := fun _ => some { name := "Approval" }

/-! ## Claim theorems -/

/-- C8: in `processLog`, a log whose decoding fails, or whose decoded event
kind has no registered handler, yields `none` (state unchanged); `processLog`
is a total function into `Option`, so neither case raises an error. -/
theorem C8_processLog_ignores_unknown (virtualPrice : Nat → Int)
    (logDecoder : IdleLog → Option IdleEvent) (state : PoolState) (log : IdleLog) :
    (logDecoder log = none → processLog virtualPrice logDecoder state log = none) ∧
    (∀ event, logDecoder log = some event → handlers virtualPrice event.name = none →
      processLog virtualPrice logDecoder state log = none) := by
  constructor
  · intro h
    simp [processLog, h]
  · intro event h hh
    simp [processLog, h, hh]

/-- Witness for C8: a failing decoder and an `Approval` event (no handler)
both leave the concrete store unchanged. -/
theorem C8_processLog_ignores_unknown_witness :
    processLog vp₀ decFail st₀ log₀ = none ∧
    processLog vp₀ decApproval st₀ log₀ = none := by
  constructor
  · exact (C8_processLog_ignores_unknown vp₀ decFail st₀ log₀).1 rfl
  · exact (C8_processLog_ignores_unknown vp₀ decApproval st₀ log₀).2
      { name := "Approval" } rfl (by simp [handlers])

/-- C9: `generateState` is idempotent: with the authoritative point-in-time
read a function of the queried block, two calls at the same block number
produce identical snapshots. -/
theorem C9_generateState_idempotent (virtualPrice : Nat → Int) (b₁ b₂ : Nat)
    (h : b₁ = b₂) :
    generateState virtualPrice b₁ = generateState virtualPrice b₂ := by
  rw [h]

/-- Witness for C9 at block 7. -/
theorem C9_generateState_idempotent_witness :
    generateState vp₀ 7 = generateState vp₀ 7 :=
  C9_generateState_idempotent vp₀ 7 7 rfl

/-- C10: the Transfer handler returns exactly the snapshot that regeneration
at the log's block number returns, independent of the previous state. -/
theorem C10_handleCoinTransfer_regenerates (virtualPrice : Nat → Int)
    (event : IdleEvent) (state state₂ : PoolState) (log : IdleLog) :
    handleCoinTransfer virtualPrice event state log
        = some (generateState virtualPrice log.blockNumber) ∧
    handleCoinTransfer virtualPrice event state log
        = handleCoinTransfer virtualPrice event state₂ log :=
  ⟨rfl, rfl⟩

/-- C4: when the external index call fails, `fetchPoolsByPair` uses exactly
the static fallback pool keys: the generic fee/spacing combinations, plus
exactly one oracle-extension configuration iff one side of the pair is the
native asset; with a native side the size is the generic count plus one. -/
theorem C4_fallback_pool_parameters (oracle : Nat) (tokenA tokenB : Token)
    (hor : oracle ≠ 0) :
    (fetchPoolsByPairKeys oracle tokenA tokenB (Except.error ())
      = fallbackPoolKeys oracle (sortAndConvertTokens tokenA tokenB).1
          (sortAndConvertTokens tokenA tokenB).2) ∧
    (∀ token0 token1 : Nat,
      ((token0 = NATIVE_TOKEN_ADDRESS ∨ token1 = NATIVE_TOKEN_ADDRESS) →
        (fallbackPoolKeys oracle token0 token1).length
            = FALLBACK_POOL_PARAMETERS.length + 1 ∧
        (fallbackPoolKeys oracle token0 token1).countP
            (fun k => k.config.extension == oracle) = 1) ∧
      (¬(token0 = NATIVE_TOKEN_ADDRESS ∨ token1 = NATIVE_TOKEN_ADDRESS) →
        (fallbackPoolKeys oracle token0 token1).length = FALLBACK_POOL_PARAMETERS.length ∧
        (fallbackPoolKeys oracle token0 token1).countP
            (fun k => k.config.extension == oracle) = 0) ∧
      (∀ params ∈ FALLBACK_POOL_PARAMETERS,
        ({ token0 := token0, token1 := token1
           config :=
             { tickSpacing := params.tickSpacing, fee := params.fee, extension := 0 } }
           : PoolKey) ∈ fallbackPoolKeys oracle token0 token1)) := by
  have hbeq : ((0 : Nat) == oracle) = false := by
    simp [Ne.symm hor]
  constructor
  · rfl
  · intro token0 token1
    refine ⟨?_, ?_, ?_⟩
    · intro h
      rw [fallbackPoolKeys, if_pos h]
      constructor
      · simp [FALLBACK_POOL_PARAMETERS]
      · simp [FALLBACK_POOL_PARAMETERS, List.countP_append, List.countP_cons, hbeq]
    · intro h
      rw [fallbackPoolKeys, if_neg h]
      constructor
      · simp [FALLBACK_POOL_PARAMETERS]
      · simp [FALLBACK_POOL_PARAMETERS, List.countP_cons, hbeq]
    · intro params hp
      rw [fallbackPoolKeys]
      refine List.mem_append_left _ ?_
      exact List.mem_map_of_mem _ hp

/-- Witness for C4: a native/non-native pair with oracle extension 1 falls
back to six pool keys, exactly one of which is the oracle pool. -/
theorem C4_fallback_pool_parameters_witness :
    fetchPoolsByPairKeys 1 { address := 0, decimals := 18 } { address := 5, decimals := 6 }
        (Except.error ())
      = fallbackPoolKeys 1 0 5 ∧
    (fallbackPoolKeys 1 0 5).length = FALLBACK_POOL_PARAMETERS.length + 1 ∧
    (fallbackPoolKeys 1 0 5).countP (fun k => k.config.extension == 1) = 1 := by
  have h := C4_fallback_pool_parameters 1 { address := 0, decimals := 18 }
    { address := 5, decimals := 6 } (by decide)
  refine ⟨h.1, ?_, ?_⟩
  · exact ((h.2 0 5).1 (Or.inl rfl)).1
  · exact ((h.2 0 5).1 (Or.inl rfl)).2

/-- Example quoting function: the whole input amount is consumed. -/
def mkQuote₀ : Int → Nat → Nat → Option Quote :=
  fun i _ _ => some { consumedAmount := i, calculatedAmount := 5, gasConsumed := 9, skipAhead := 0 }

/-- Example pool key. -/
def key₀ : PoolKey := { token0 := 3, token1 := 7, config := { tickSpacing := 1, fee := 10, extension := 0 } }

/-- A second pool key over the same pair. -/
def keyB : PoolKey := { token0 := 3, token1 := 7, config := { tickSpacing := 2, fee := 20, extension := 0 } }

/-- Example pool stored under `key₀`. -/
def pool₀ : Pool := { key := key₀, quote := mkQuote₀ }

/-- Example registry holding `pool₀`. -/
def r₀ : Registry := [(key₀, pool₀)]

/-- Environment where every batch succeeds. -/
def env₀ : InitEnv :=
  { timesOut := fun _ => false
    fetchFails := fun _ => false
    mkPool := fun k => { key := k, quote := mkQuote₀ } }

/-- C3: inserting through discovery under an identifier already present in
the registry is a no-op — `updatePoolMap` leaves the stored pool object of
every already-tracked identifier unchanged — and the registry never comes to
hold two entries for one identifier. -/
theorem C3_reinsert_noop (oracle : Nat) (env : InitEnv) (r : Registry)
    (fetched : Except Unit (List PoolKey)) (id : PoolKey) :
    ((Registry.get r id).isSome →
      Registry.get (updatePoolMap oracle env r fetched) id = Registry.get r id) ∧
    ((r.map Prod.fst).Nodup →
      ((updatePoolMap oracle env r fetched).map Prod.fst).Nodup) := by
  cases fetched with
  | error e => exact ⟨fun _ => rfl, fun h => h⟩
  | ok poolKeys =>
    constructor
    · intro hsome
      simp only [updatePoolMap]
      apply applyInitResults_get_of_ne
      intro res hres ps hok kp hkp
      rw [initializePools] at hres
      obtain ⟨b, hb, hrb⟩ := List.mem_map.1 hres
      rw [hok] at hrb
      have hps := runBatch_ok_inv _ _ _ _ _ hrb
      subst hps
      obtain ⟨k, hk, hkp₂⟩ := List.mem_map.1 hkp
      have hkin : k ∈ poolKeys.filter (fun k => (Registry.get r k.string_id).isNone) := by
        rw [← chunks_flatten MAX_POOL_BATCH_COUNT
          (poolKeys.filter (fun k => (Registry.get r k.string_id).isNone))]
        exact List.mem_flatten.2 ⟨b, hb, hk⟩
      have hnone := (List.mem_filter.1 hkin).2
      intro heq
      rw [← hkp₂] at heq
      simp only [PoolKey.string_id] at heq hnone
      rw [heq] at hnone
      rw [Option.isNone_iff_eq_none] at hnone
      rw [hnone] at hsome
      cases hsome
    · intro hnd
      simp only [updatePoolMap]
      exact applyInitResults_keys_nodup _ r hnd

/-- Witness for C3: re-discovering `key₀` together with the new `keyB` leaves
the stored pool object under `key₀` untouched. -/
theorem C3_reinsert_noop_witness :
    Registry.get (updatePoolMap 1 env₀ r₀ (Except.ok [key₀, keyB])) key₀
      = Registry.get r₀ key₀ :=
  (C3_reinsert_noop 1 env₀ r₀ (Except.ok [key₀, keyB]) key₀).1 rfl

/-- Keys for the C5 witness: six keys make two batches. -/
def k₁ : PoolKey := { token0 := 1, token1 := 2, config := { tickSpacing := 1, fee := 1, extension := 0 } }

/-- Second witness key. -/
def k₂ : PoolKey := { token0 := 1, token1 := 2, config := { tickSpacing := 2, fee := 1, extension := 0 } }

/-- Third witness key. -/
def k₃ : PoolKey := { token0 := 1, token1 := 2, config := { tickSpacing := 3, fee := 1, extension := 0 } }

/-- Fourth witness key. -/
def k₄ : PoolKey := { token0 := 1, token1 := 2, config := { tickSpacing := 4, fee := 1, extension := 0 } }

/-- Fifth witness key. -/
def k₅ : PoolKey := { token0 := 1, token1 := 2, config := { tickSpacing := 5, fee := 1, extension := 0 } }

/-- Sixth witness key, landing alone in the second batch. -/
def k₆ : PoolKey := { token0 := 1, token1 := 2, config := { tickSpacing := 6, fee := 1, extension := 0 } }

/-- Six keys: the first five form batch one and `k₆` batch two. -/
def keys₆ : List PoolKey := [k₁, k₂, k₃, k₄, k₅, k₆]

/-- Environment where exactly the batches containing `k₁` fail. -/
def envFail₁ : InitEnv :=
  { timesOut := fun _ => false
    fetchFails := fun b => b.contains k₁
    mkPool := fun k => { key := k, quote := mkQuote₀ } }

/-- C5: the pool keys are split into consecutive batches of at most
`MAX_POOL_BATCH_COUNT`; a failed batch rejects with exactly its own pool
keys, and every successful batch's pools enter the registry regardless of
the failures of sibling batches. -/
theorem C5_batch_isolation (oracle : Nat) (env : InitEnv) (poolKeys : List PoolKey)
    (maxTime : Option Nat) (r : Registry) :
    (chunks MAX_POOL_BATCH_COUNT poolKeys).flatten = poolKeys ∧
    (∀ b ∈ chunks MAX_POOL_BATCH_COUNT poolKeys, b.length ≤ MAX_POOL_BATCH_COUNT) ∧
    (initializePools oracle env poolKeys maxTime
      = (chunks MAX_POOL_BATCH_COUNT poolKeys).map (runBatch oracle env maxTime)) ∧
    (∀ b ∈ chunks MAX_POOL_BATCH_COUNT poolKeys, ∀ e,
      runBatch oracle env maxTime b = Except.error e → e = b) ∧
    (∀ b ∈ chunks MAX_POOL_BATCH_COUNT poolKeys, ∀ ps,
      runBatch oracle env maxTime b = Except.ok ps → ∀ k ∈ b,
        (Registry.get (applyInitResults r (initializePools oracle env poolKeys maxTime))
          k.string_id).isSome) := by
  refine ⟨chunks_flatten _ _, chunks_length_le _ (by decide) _, rfl, ?_, ?_⟩
  · intro b _ e he
    exact runBatch_error_inv _ _ _ _ _ he
  · intro b hb ps hok k hk
    obtain ⟨s, t, hst⟩ := List.append_of_mem hb
    rw [initializePools, hst, List.map_append, List.map_cons, hok]
    rw [applyInitResults_append, applyInitResults_cons_ok]
    apply applyInitResults_isSome_mono
    have hps := runBatch_ok_inv _ _ _ _ _ hok
    subst hps
    exact Registry.foldl_set_isSome_of_mem _ (k, env.mkPool k)
      (List.mem_map_of_mem (fun k => (k, env.mkPool k)) hk) _

/-- Witness for C5: with six keys where the first batch of five fails, the
batches join back to the key list, the first batch respects the size bound,
the failed batch's error carries its own keys, and `k₆` from the surviving
second batch still enters the registry. -/
theorem C5_batch_isolation_witness :
    (chunks MAX_POOL_BATCH_COUNT keys₆).flatten = keys₆ ∧
    ([k₁, k₂, k₃, k₄, k₅] : List PoolKey).length ≤ MAX_POOL_BATCH_COUNT ∧
    ([k₁, k₂, k₃, k₄, k₅] : List PoolKey) = [k₁, k₂, k₃, k₄, k₅] ∧
    (Registry.get (applyInitResults [] (initializePools 1 envFail₁ keys₆ none))
      k₆.string_id).isSome := by
  have hchunks : chunks MAX_POOL_BATCH_COUNT keys₆ = [[k₁, k₂, k₃, k₄, k₅], [k₆]] := rfl
  have h := C5_batch_isolation 1 envFail₁ keys₆ none []
  refine ⟨h.1, ?_, ?_, ?_⟩
  · exact h.2.1 [k₁, k₂, k₃, k₄, k₅] (by rw [hchunks]; exact List.mem_cons_self _ _)
  · exact h.2.2.2.1 [k₁, k₂, k₃, k₄, k₅]
      (by rw [hchunks]; exact List.mem_cons_self _ _) [k₁, k₂, k₃, k₄, k₅] rfl
  · exact h.2.2.2.2 [k₆]
      (by rw [hchunks]; exact List.mem_cons_of_mem _ (List.mem_cons_self _ _))
      ([k₆].map (fun k => (k, envFail₁.mkPool k))) rfl k₆ (List.mem_cons_self _ _)

/-- Source token of the quoting witnesses (address 3, zero decimals). -/
def tokA : Token := { address := 3, decimals := 0 }

/-- Destination token of the quoting witnesses (address 7, one decimal). -/
def tokB : Token := { address := 7, decimals := 1 }

/-- Pool whose consumed amount always differs by one from the input. -/
def shortPool : Pool :=
  { key := keyB
    quote := fun i _ _ =>
      some { consumedAmount := i + 1, calculatedAmount := 5, gasConsumed := 9, skipAhead := 0 } }

/-- Pool whose quoting function always throws. -/
def throwPool : Pool := { key := keyB, quote := fun _ _ _ => none }

/-- Pool stored under a key of a different token pair. -/
def otherPairPool : Pool :=
  { key := { token0 := 3, token1 := 9, config := key₀.config }, quote := mkQuote₀ }

/-- Registry holding only the always-throwing pool. -/
def rThrow : Registry := [(keyB, throwPool)]

/-- C1: on a buy (exact-output) request every returned price point comes from
a pool whose quote consumed exactly the negated requested amount for the unit
amount and for every requested amount; a pool with any differing consumed
amount contributes no price point at all, and dropping it leaves the other
pools' quoting unchanged. -/
theorem C1_exact_out_consumed (registry : Registry) (srcToken destToken : Token)
    (amounts : List Int) (blockNumber : Nat) (limitPools : Option (List PoolKey)) :
    (∀ e ∈ getPricesVolume registry srcToken destToken amounts SwapSide.BUY blockNumber
        limitPools,
      ∃ pool, pool ∈ getInitializedPools registry srcToken destToken limitPools ∧
        pricePointForPool true (sortAndConvertTokens srcToken destToken).1
          (sortAndConvertTokens srcToken destToken).2
          (convertParaSwapToEkubo destToken.address) blockNumber
          (unitAmountOf destToken :: amounts) pool = some e ∧
        ∀ a ∈ unitAmountOf destToken :: amounts, ∃ q,
          pool.quote (-a) (convertParaSwapToEkubo destToken.address) blockNumber = some q ∧
          q.consumedAmount = -a) ∧
    (∀ (l₁ l₂ : List Pool) (pool : Pool) (a : Int) (q : Quote),
      a ∈ unitAmountOf destToken :: amounts →
      pool.quote (-a) (convertParaSwapToEkubo destToken.address) blockNumber = some q →
      q.consumedAmount ≠ -a →
      poolLoop true (sortAndConvertTokens srcToken destToken).1
        (sortAndConvertTokens srcToken destToken).2
        (convertParaSwapToEkubo destToken.address) blockNumber
        (unitAmountOf destToken :: amounts) (l₁ ++ pool :: l₂)
      = poolLoop true (sortAndConvertTokens srcToken destToken).1
        (sortAndConvertTokens srcToken destToken).2
        (convertParaSwapToEkubo destToken.address) blockNumber
        (unitAmountOf destToken :: amounts) (l₁ ++ l₂)) := by
  have hfm := getPricesVolume_eq_filterMap registry srcToken destToken amounts SwapSide.BUY
    blockNumber limitPools
  simp only [SwapSide.isBuy, amountTokenOf, reduceIte] at hfm
  constructor
  · intro e he
    rw [hfm] at he
    obtain ⟨pool, hpool, hpp⟩ := List.mem_filterMap.1 he
    refine ⟨pool, hpool, hpp, ?_⟩
    obtain ⟨_, _, _, uq, oq, hqa, _⟩ := pricePointForPool_some _ _ _ _ _ _ _ _ hpp
    intro a ha
    obtain ⟨i, hi⟩ := List.getElem?_of_mem ha
    obtain ⟨q, _, hq2, hq3⟩ := quoteAmounts_getElem _ _ _ _ _ _ hqa i a hi
    refine ⟨q, ?_, ?_⟩
    · simpa [signedAmount] using hq2
    · simpa [signedAmount] using hq3 rfl
  · intro l₁ l₂ pool a q ha hq hne
    rw [poolLoop_eq_filterMap, poolLoop_eq_filterMap]
    have hnone : pricePointForPool true (sortAndConvertTokens srcToken destToken).1
        (sortAndConvertTokens srcToken destToken).2
        (convertParaSwapToEkubo destToken.address) blockNumber
        (unitAmountOf destToken :: amounts) pool = none := by
      rw [pricePointForPool]
      split
      · rw [quoteAmounts_none_of_consumed_ne pool
          (convertParaSwapToEkubo destToken.address) blockNumber
          (unitAmountOf destToken :: amounts) a q ha
          (by simpa [signedAmount] using hq) (by simpa [signedAmount] using hne)]
      · rfl
    simp [List.filterMap_append, List.filterMap_cons, hnone]

/-- Witness for C1: the pool whose consumed amount is off by one is dropped
from the exact-out quoting while the well-behaved pool is unaffected. -/
theorem C1_exact_out_consumed_witness :
    poolLoop true (sortAndConvertTokens tokA tokB).1 (sortAndConvertTokens tokA tokB).2
      (convertParaSwapToEkubo tokB.address) 11 (unitAmountOf tokB :: [2])
      ([pool₀] ++ shortPool :: [])
    = poolLoop true (sortAndConvertTokens tokA tokB).1 (sortAndConvertTokens tokA tokB).2
      (convertParaSwapToEkubo tokB.address) 11 (unitAmountOf tokB :: [2])
      ([pool₀] ++ []) :=
  (C1_exact_out_consumed r₀ tokA tokB [2] 11 none).2 [pool₀] [] shortPool 10
    { consumedAmount := -9, calculatedAmount := 5, gasConsumed := 9, skipAhead := 0 }
    (by decide) (by decide) (by decide)

/-- C2: every returned price point originates from a pool whose key pair is
the canonical (sorted) form of the requested pair; `getInitializedPools`
without an allow-list only returns such pools; and a candidate pool with a
mismatched pair is skipped without affecting the rest of the request. -/
theorem C2_canonical_pair (registry : Registry) (srcToken destToken : Token)
    (amounts : List Int) (side : SwapSide) (blockNumber : Nat)
    (limitPools : Option (List PoolKey)) :
    (∀ e ∈ getPricesVolume registry srcToken destToken amounts side blockNumber limitPools,
      ∃ pool, pool ∈ getInitializedPools registry srcToken destToken limitPools ∧
        e.poolKey = pool.key ∧
        pool.key.token0 = (sortAndConvertTokens srcToken destToken).1 ∧
        pool.key.token1 = (sortAndConvertTokens srcToken destToken).2) ∧
    (∀ pool ∈ getInitializedPools registry srcToken destToken none,
      pool.key.token0 = (sortAndConvertTokens srcToken destToken).1 ∧
      pool.key.token1 = (sortAndConvertTokens srcToken destToken).2) ∧
    (∀ (l₁ l₂ : List Pool) (pool : Pool),
      ¬(pool.key.token0 = (sortAndConvertTokens srcToken destToken).1 ∧
        pool.key.token1 = (sortAndConvertTokens srcToken destToken).2) →
      poolLoop side.isBuy (sortAndConvertTokens srcToken destToken).1
        (sortAndConvertTokens srcToken destToken).2
        (convertParaSwapToEkubo (amountTokenOf side srcToken destToken).address)
        blockNumber (unitAmountOf (amountTokenOf side srcToken destToken) :: amounts)
        (l₁ ++ pool :: l₂)
      = poolLoop side.isBuy (sortAndConvertTokens srcToken destToken).1
        (sortAndConvertTokens srcToken destToken).2
        (convertParaSwapToEkubo (amountTokenOf side srcToken destToken).address)
        blockNumber (unitAmountOf (amountTokenOf side srcToken destToken) :: amounts)
        (l₁ ++ l₂)) := by
  refine ⟨?_, ?_, ?_⟩
  · intro e he
    rw [getPricesVolume_eq_filterMap] at he
    obtain ⟨pool, hpool, hpp⟩ := List.mem_filterMap.1 he
    obtain ⟨h0, h1, hpk, _⟩ := pricePointForPool_some _ _ _ _ _ _ _ _ hpp
    exact ⟨pool, hpool, hpk, h0, h1⟩
  · intro pool hpool
    simp only [getInitializedPools] at hpool
    have := List.mem_filter.1 hpool
    exact of_decide_eq_true this.2
  · intro l₁ l₂ pool hmis
    rw [poolLoop_eq_filterMap, poolLoop_eq_filterMap]
    have hnone : pricePointForPool side.isBuy (sortAndConvertTokens srcToken destToken).1
        (sortAndConvertTokens srcToken destToken).2
        (convertParaSwapToEkubo (amountTokenOf side srcToken destToken).address)
        blockNumber (unitAmountOf (amountTokenOf side srcToken destToken) :: amounts)
        pool = none := by
      rw [pricePointForPool, if_neg hmis]
    simp [List.filterMap_append, List.filterMap_cons, hnone]

/-- Witness for C2: a pool registered for pair (3, 9) is skipped when quoting
pair (3, 7), leaving the matching pool's quoting unchanged. -/
theorem C2_canonical_pair_witness :
    poolLoop SwapSide.SELL.isBuy (sortAndConvertTokens tokA tokB).1
      (sortAndConvertTokens tokA tokB).2
      (convertParaSwapToEkubo (amountTokenOf SwapSide.SELL tokA tokB).address) 11
      (unitAmountOf (amountTokenOf SwapSide.SELL tokA tokB) :: [2])
      ([] ++ otherPairPool :: [pool₀])
    = poolLoop SwapSide.SELL.isBuy (sortAndConvertTokens tokA tokB).1
      (sortAndConvertTokens tokA tokB).2
      (convertParaSwapToEkubo (amountTokenOf SwapSide.SELL tokA tokB).address) 11
      (unitAmountOf (amountTokenOf SwapSide.SELL tokA tokB) :: [2])
      ([] ++ [pool₀]) :=
  (C2_canonical_pair r₀ tokA tokB [2] SwapSide.SELL 11 none).2.2 [] [pool₀] otherPairPool
    (by decide)

/-- C6: the result is assembled pool by pool (a `filterMap`), an exception
thrown while quoting one pool removes only that pool's contribution, and when
no pool yields a quote the result is the empty list rather than an error. -/
theorem C6_quote_failure_isolated (registry : Registry) (srcToken destToken : Token)
    (amounts : List Int) (side : SwapSide) (blockNumber : Nat)
    (limitPools : Option (List PoolKey)) :
    (getPricesVolume registry srcToken destToken amounts side blockNumber limitPools
      = (getInitializedPools registry srcToken destToken limitPools).filterMap
          (pricePointForPool side.isBuy
            (sortAndConvertTokens srcToken destToken).1
            (sortAndConvertTokens srcToken destToken).2
            (convertParaSwapToEkubo (amountTokenOf side srcToken destToken).address)
            blockNumber
            (unitAmountOf (amountTokenOf side srcToken destToken) :: amounts))) ∧
    (∀ (l₁ l₂ : List Pool) (pool : Pool) (a : Int),
      a ∈ unitAmountOf (amountTokenOf side srcToken destToken) :: amounts →
      pool.quote (signedAmount side.isBuy a)
        (convertParaSwapToEkubo (amountTokenOf side srcToken destToken).address)
        blockNumber = none →
      poolLoop side.isBuy (sortAndConvertTokens srcToken destToken).1
        (sortAndConvertTokens srcToken destToken).2
        (convertParaSwapToEkubo (amountTokenOf side srcToken destToken).address)
        blockNumber (unitAmountOf (amountTokenOf side srcToken destToken) :: amounts)
        (l₁ ++ pool :: l₂)
      = poolLoop side.isBuy (sortAndConvertTokens srcToken destToken).1
        (sortAndConvertTokens srcToken destToken).2
        (convertParaSwapToEkubo (amountTokenOf side srcToken destToken).address)
        blockNumber (unitAmountOf (amountTokenOf side srcToken destToken) :: amounts)
        (l₁ ++ l₂)) ∧
    ((∀ pool ∈ getInitializedPools registry srcToken destToken limitPools,
        pricePointForPool side.isBuy (sortAndConvertTokens srcToken destToken).1
          (sortAndConvertTokens srcToken destToken).2
          (convertParaSwapToEkubo (amountTokenOf side srcToken destToken).address)
          blockNumber (unitAmountOf (amountTokenOf side srcToken destToken) :: amounts)
          pool = none) →
      getPricesVolume registry srcToken destToken amounts side blockNumber limitPools
        = []) := by
  refine ⟨getPricesVolume_eq_filterMap _ _ _ _ _ _ _, ?_, ?_⟩
  · intro l₁ l₂ pool a ha hq
    rw [poolLoop_eq_filterMap, poolLoop_eq_filterMap]
    have hnone : pricePointForPool side.isBuy (sortAndConvertTokens srcToken destToken).1
        (sortAndConvertTokens srcToken destToken).2
        (convertParaSwapToEkubo (amountTokenOf side srcToken destToken).address)
        blockNumber (unitAmountOf (amountTokenOf side srcToken destToken) :: amounts)
        pool = none := by
      rw [pricePointForPool]
      split
      · rw [quoteAmounts_none_of_quote_none pool side.isBuy
          (convertParaSwapToEkubo (amountTokenOf side srcToken destToken).address)
          blockNumber (unitAmountOf (amountTokenOf side srcToken destToken) :: amounts)
          a ha hq]
      · rfl
    simp [List.filterMap_append, List.filterMap_cons, hnone]
  · intro hall
    rw [getPricesVolume_eq_filterMap]
    exact List.filterMap_eq_nil_iff.2 hall

/-- Witness for C6: the always-throwing pool is skipped without affecting the
well-behaved pool, and a registry with only throwing pools yields `[]`. -/
theorem C6_quote_failure_isolated_witness :
    (poolLoop SwapSide.SELL.isBuy (sortAndConvertTokens tokA tokB).1
      (sortAndConvertTokens tokA tokB).2
      (convertParaSwapToEkubo (amountTokenOf SwapSide.SELL tokA tokB).address) 11
      (unitAmountOf (amountTokenOf SwapSide.SELL tokA tokB) :: [2])
      ([] ++ throwPool :: [pool₀])
    = poolLoop SwapSide.SELL.isBuy (sortAndConvertTokens tokA tokB).1
      (sortAndConvertTokens tokA tokB).2
      (convertParaSwapToEkubo (amountTokenOf SwapSide.SELL tokA tokB).address) 11
      (unitAmountOf (amountTokenOf SwapSide.SELL tokA tokB) :: [2])
      ([] ++ [pool₀])) ∧
    getPricesVolume rThrow tokA tokB [2] SwapSide.SELL 11 none = [] := by
  constructor
  · exact (C6_quote_failure_isolated r₀ tokA tokB [2] SwapSide.SELL 11 none).2.1
      [] [pool₀] throwPool 1 (by decide) (by decide)
  · exact (C6_quote_failure_isolated rThrow tokA tokB [2] SwapSide.SELL 11 none).2.2
      (by decide)

/-- C7: quotes are computed for the unit amount (one whole token of the
amount token: destination for a buy, source for a sell) and then for each
requested amount in the order given; the i-th price and gas entries of each
returned price point correspond positionally to the i-th requested amount,
and the unit output is reported separately. -/
theorem C7_positional_correspondence (registry : Registry) (srcToken destToken : Token)
    (amounts : List Int) (side : SwapSide) (blockNumber : Nat)
    (limitPools : Option (List PoolKey)) :
    ∀ e ∈ getPricesVolume registry srcToken destToken amounts side blockNumber limitPools,
      ∃ pool, pool ∈ getInitializedPools registry srcToken destToken limitPools ∧
        (∃ uq, pool.quote
            (signedAmount side.isBuy (unitAmountOf (amountTokenOf side srcToken destToken)))
            (convertParaSwapToEkubo (amountTokenOf side srcToken destToken).address)
            blockNumber = some uq ∧
          e.unit = uq.calculatedAmount) ∧
        e.prices.length = amounts.length ∧
        e.gasCost.length = amounts.length ∧
        (∀ (i : Nat) (a : Int), amounts[i]? = some a → ∃ q,
          pool.quote (signedAmount side.isBuy a)
            (convertParaSwapToEkubo (amountTokenOf side srcToken destToken).address)
            blockNumber = some q ∧
          e.prices[i]? = some q.calculatedAmount ∧
          e.gasCost[i]? = some q.gasConsumed) := by
  intro e he
  rw [getPricesVolume_eq_filterMap] at he
  obtain ⟨pool, hpool, hpp⟩ := List.mem_filterMap.1 he
  obtain ⟨_, _, _, uq, oq, hqa, hunit, hprices, hgas⟩ :=
    pricePointForPool_some _ _ _ _ _ _ _ _ hpp
  have hlen : oq.length = amounts.length := by
    have := quoteAmounts_length _ _ _ _ _ _ hqa
    simpa using this
  refine ⟨pool, hpool, ⟨uq, ?_, hunit⟩, ?_, ?_, ?_⟩
  · obtain ⟨q, hq1, hq2, _⟩ := quoteAmounts_getElem _ _ _ _ _ _ hqa 0
      (unitAmountOf (amountTokenOf side srcToken destToken)) (by simp)
    simp only [List.getElem?_cons_zero, Option.some.injEq] at hq1
    rw [hq1]
    exact hq2
  · rw [hprices, List.length_map, hlen]
  · rw [hgas, List.length_map, hlen]
  · intro i a hi
    obtain ⟨q, hq1, hq2, _⟩ := quoteAmounts_getElem _ _ _ _ _ _ hqa (i + 1) a
      (by simpa using hi)
    rw [List.getElem?_cons_succ] at hq1
    refine ⟨q, hq2, ?_, ?_⟩
    · rw [hprices, List.getElem?_map, hq1]
      rfl
    · rw [hgas, List.getElem?_map, hq1]
      rfl

/-- The price point produced by `pool₀` for a sell of amounts `[2]`. -/
def e₇ : PricePoint :=
  { prices := [5], unit := 5, poolKey := key₀, isToken1 := false
    skipAhead := [(1, 0), (2, 0)], poolIdentifier := key₀, gasCost := [9] }

/-- Witness for C7: the concrete price point of `pool₀` is in the result and
has one price and one gas entry for the single requested amount. -/
theorem C7_positional_correspondence_witness :
    e₇ ∈ getPricesVolume r₀ tokA tokB [2] SwapSide.SELL 11 none ∧
    e₇.prices.length = 1 ∧ e₇.gasCost.length = 1 := by
  have hmem : e₇ ∈ getPricesVolume r₀ tokA tokB [2] SwapSide.SELL 11 none := by decide
  have h := C7_positional_correspondence r₀ tokA tokB [2] SwapSide.SELL 11 none e₇ hmem
  obtain ⟨pool, _, _, hp, hg, _⟩ := h
  exact ⟨hmem, hp, hg⟩

end Spec2Proof
